import Mathlib

/-!
Verification of the Rwanda Infrastructure Management System (src/main.cpp).

Shallow embedding of the core in-memory graph model:
`RwandaInfrastructure` holds a `vector<City> cities`, a
`vector<vector<int>> roadMatrix` and a `vector<vector<double>> budgetMatrix`.
C++ `std::vector` is modelled as `List`, `int` as `Int`, and `double` as `ℚ`
(the program only ever stores budget values and compares them against 0 —
it performs no floating-point arithmetic — so the rational model is exact
for every property considered here).

Failure results: each mutating member function returns `bool` and, on a
failure path, prints a distinguishing message and returns `false` before any
mutation.  We model the result as `Except OpError RwandaState`, one `OpError`
constructor per distinguishing message, and an error result leaves the
object state unchanged (matching the C++ early `return false` paths, which
perform no mutation).
-/

namespace RwandaInfra

/-- `struct City { int index; string name; }` (src/main.cpp lines 104-107). -/
structure City where
  index : Int
  name : String
deriving Repr, DecidableEq, Inhabited

/-- The private state of class `RwandaInfrastructure`
(src/main.cpp lines 128-130). -/
structure RwandaState where
  cities : List City
  roadMatrix : List (List Int)
  budgetMatrix : List (List ℚ)
deriving Repr, DecidableEq

/-- The default-constructed object: empty city list, empty matrices
(src/main.cpp lines 175-177). -/
def emptyState : RwandaState := ⟨[], [], []⟩

/-- Error kinds, one per distinguishing failure message printed by the
mutating operations (spec §7 taxonomy). -/
inductive OpError where
  | DuplicateName
  | SelfLoop
  | CityNotFound
  | DuplicateRoad
  | NegativeBudget
  | NoRoad
  | SameName
  | NotFound
deriving Repr, DecidableEq

/-- `findCityIndex` (src/main.cpp lines 132-139): returns the `index` field
of the first city whose name matches, `-1` when none matches. -/
def findCityIndex (cities : List City) (name : String) : Int :=
  match cities with
  | [] => -1
  | c :: rest => if c.name = name then c.index else findCityIndex rest name

/-- `std::vector::resize(n, fill)`: truncates to `n` when shrinking, pads
with `fill` when growing. -/
def vecResize {α : Type} (v : List α) (n : Nat) (fill : α) : List α :=
  v.take n ++ List.replicate (n - v.length) fill

/-- Read `m[i][j]` of a matrix stored as a vector of row vectors.
Out-of-range reads, which are UB in C++, are proved in-bounds on every
reachable access and default to `d` here. -/
def gridGet {α : Type} (m : List (List α)) (i j : Nat) (d : α) : α :=
  (m.getD i []).getD j d

/-- Write `m[i][j] = v` of a matrix stored as a vector of row vectors
(a no-op when out of range, like `List.set`). -/
def gridSet {α : Type} (m : List (List α)) (i j : Nat) (v : α) : List (List α) :=
  m.set i ((m.getD i []).set j v)

/-- `initializeMatrices` body for one matrix (src/main.cpp lines 145-149):
`matrix.resize(size, vector(size, z))` — appends fresh rows, does not touch
existing rows (it is only called when `roadMatrix` is empty). -/
def gridInit {α : Type} (m : List (List α)) (n : Nat) (z : α) : List (List α) :=
  vecResize m n (List.replicate n z)

/-- `resizeMatrices` body for one matrix (src/main.cpp lines 155-168): each
existing row is resized to `newSize` (padded with `z`), then the outer
vector is resized to `newSize` with fresh rows of `z`. -/
def gridResize {α : Type} (m : List (List α)) (n : Nat) (z : α) : List (List α) :=
  vecResize (m.map fun r => vecResize r n z) n (List.replicate n z)

/-- `roadMatrix[i][j]`. -/
def matGet (m : List (List Int)) (i j : Nat) : Int :=
  gridGet m i j 0

/-- `budgetMatrix[i][j]`. -/
def matGetQ (m : List (List ℚ)) (i j : Nat) : ℚ :=
  gridGet m i j 0

/-- `roadMatrix[i][j] = v`. -/
def matSet (m : List (List Int)) (i j : Nat) (v : Int) : List (List Int) :=
  gridSet m i j v

/-- `budgetMatrix[i][j] = v`. -/
def matSetQ (m : List (List ℚ)) (i j : Nat) (v : ℚ) : List (List ℚ) :=
  gridSet m i j v

/-- `initializeMatrices` on the road matrix. -/
def initSq (m : List (List Int)) (n : Nat) : List (List Int) :=
  gridInit m n 0

/-- `initializeMatrices` on the budget matrix. -/
def initSqQ (m : List (List ℚ)) (n : Nat) : List (List ℚ) :=
  gridInit m n 0

/-- `resizeMatrices` on the road matrix. -/
def resizeSq (m : List (List Int)) (n : Nat) : List (List Int) :=
  gridResize m n 0

/-- `resizeMatrices` on the budget matrix. -/
def resizeSqQ (m : List (List ℚ)) (n : Nat) : List (List ℚ) :=
  gridResize m n 0

/-- `int newIndex = cities.empty() ? 1 : cities.back().index + 1;`
(src/main.cpp line 186). -/
def nextIndex (cs : List City) : Int :=
  match cs.getLast? with
  | none => 1
  | some c => c.index + 1

/-- `addCity` (src/main.cpp lines 179-198): duplicate-name check, then
`newIndex = cities.empty() ? 1 : cities.back().index + 1`, push, then
resize (or initialize, when `roadMatrix` is empty) both matrices to the new
`cities.size()`. -/
def addCity (s : RwandaState) (name : String) : Except OpError RwandaState :=
  if findCityIndex s.cities name ≠ -1 then
    .error .DuplicateName
  else
    let cities' := s.cities ++ [⟨nextIndex s.cities, name⟩]
    let size := cities'.length
    if s.roadMatrix.isEmpty then
      .ok ⟨cities', initSq s.roadMatrix size, initSqQ s.budgetMatrix size⟩
    else
      .ok ⟨cities', resizeSq s.roadMatrix size, resizeSqQ s.budgetMatrix size⟩

/-- The zero-based matrix position the code computes from a resolved city
index: `int i = idx - 1;` (src/main.cpp lines 215, 246). -/
def cityPos (s : RwandaState) (name : String) : Nat :=
  (findCityIndex s.cities name - 1).toNat

/-- `addRoad` (src/main.cpp lines 200-228): self-loop check, name
resolution, duplicate-road check, then `roadMatrix[i][j] = roadMatrix[j][i]
= 1`. -/
def addRoad (s : RwandaState) (city1 city2 : String) : Except OpError RwandaState :=
  if city1 = city2 then
    .error .SelfLoop
  else
    let idx1 := findCityIndex s.cities city1
    let idx2 := findCityIndex s.cities city2
    if idx1 = -1 ∨ idx2 = -1 then
      .error .CityNotFound
    else
      let i := (idx1 - 1).toNat
      let j := (idx2 - 1).toNat
      if matGet s.roadMatrix i j = 1 then
        .error .DuplicateRoad
      else
        .ok { s with roadMatrix := matSet (matSet s.roadMatrix i j 1) j i 1 }

/-- `addBudget` (src/main.cpp lines 231-260): negative check, name
resolution, no-road check (`roadMatrix[i][j] == 0`), then
`budgetMatrix[i][j] = budgetMatrix[j][i] = budget`. -/
def addBudget (s : RwandaState) (city1 city2 : String) (budget : ℚ) :
    Except OpError RwandaState :=
  if budget < 0 then
    .error .NegativeBudget
  else
    let idx1 := findCityIndex s.cities city1
    let idx2 := findCityIndex s.cities city2
    if idx1 = -1 ∨ idx2 = -1 then
      .error .CityNotFound
    else
      let i := (idx1 - 1).toNat
      let j := (idx2 - 1).toNat
      if matGet s.roadMatrix i j = 0 then
        .error .NoRoad
      else
        .ok { s with budgetMatrix := matSetQ (matSetQ s.budgetMatrix i j budget) j i budget }

/-- The final loop of `editCity` (src/main.cpp lines 281-287): rename the
first city whose name matches, leave the rest untouched. -/
def renameFirst (cs : List City) (oldName newName : String) : List City :=
  match cs with
  | [] => []
  | c :: rest =>
    if c.name = oldName then { c with name := newName } :: rest
    else c :: renameFirst rest oldName newName

/-- `editCity` (src/main.cpp lines 263-290): same-name check FIRST, then
old-name resolution, then duplicate-new-name check, then rename in place.
(The trailing `return false` after the rename loop is unreachable: the
`findCityIndex(oldName) != -1` guard guarantees the loop finds a match.) -/
def editCity (s : RwandaState) (oldName newName : String) :
    Except OpError RwandaState :=
  if oldName = newName then
    .error .SameName
  else if findCityIndex s.cities oldName = -1 then
    .error .NotFound
  else if findCityIndex s.cities newName ≠ -1 then
    .error .DuplicateName
  else
    .ok { s with cities := renameFirst s.cities oldName newName }

/-- The core mutating operations (spec §4.2); one per user command that can
change state. -/
inductive Op where
  | addCity (name : String)
  | addRoad (city1 city2 : String)
  | setBudget (city1 city2 : String) (amount : ℚ)
  | renameCity (oldName newName : String)

/-- Run one operation on the object: a failure path leaves the state
unchanged (each C++ failure path returns `false` without mutating). -/
def applyOp (s : RwandaState) : Op → RwandaState
  | .addCity n =>
    match addCity s n with
    | .ok s' => s'
    | .error _ => s
  | .addRoad a b =>
    match addRoad s a b with
    | .ok s' => s'
    | .error _ => s
  | .setBudget a b q =>
    match addBudget s a b q with
    | .ok s' => s'
    | .error _ => s
  | .renameCity o n =>
    match editCity s o n with
    | .ok s' => s'
    | .error _ => s

/-- The state reached from the default-constructed object by a sequence of
core operations. -/
def run (ops : List Op) : RwandaState :=
  ops.foldl applyOp emptyState

/-- Name presence, the spec's "name already present (case-sensitive exact
match)". -/
def hasName (cs : List City) (name : String) : Bool :=
  cs.any fun c => c.name = name

/-- The largest index currently assigned (the spec's `old_max`); `0` for an
empty registry. -/
def maxIndex (cs : List City) : Int :=
  (cs.map City.index).foldr max 0

/-- Sequential numbering of table rows starting at `c`, mirroring the
`counter++` in `saveToFiles`. -/
def numberFrom {α : Type} : Nat → List α → List (Nat × α)
  | _, [] => []
  | c, r :: rs => (c, r) :: numberFrom (c + 1) rs

/-- The body rows of `roads.txt` as emitted by the writer loop in
`saveToFiles` (src/main.cpp lines 414-424): for each row position `i`, for
each `j` from `i+1` below the row length, if `roadMatrix[i][j] == 1` emit
the pair of the rendered road name `cities[i].name + "-" + cities[j].name`
and the stored budget `budgetMatrix[i][j]`. -/
def roadRowsCode (s : RwandaState) : List (String × ℚ) :=
  (List.range s.roadMatrix.length).flatMap fun i =>
    (((List.range (s.roadMatrix.getD i []).length).filter fun j => decide (i < j)).filter
        fun j => decide (matGet s.roadMatrix i j = 1)).map
      fun j => ((s.cities.getD i default).name ++ "-" ++ (s.cities.getD j default).name,
        matGetQ s.budgetMatrix i j)

/-- The road table of the snapshot: the writer's rows numbered sequentially
from 1 (src/main.cpp line 414, `int counter = 1`). -/
def roadTable (s : RwandaState) : List (Nat × String × ℚ) :=
  numberFrom 1 (roadRowsCode s)

/-- Spec-side description (§4.3): the position pairs `(i, j)` with `i < j`
over the city count and `A[i][j] = 1`, in row-major order of `(i, j)`. -/
def roadPairsSpec (s : RwandaState) : List (Nat × Nat) :=
  ((List.range s.cities.length).flatMap fun i =>
    (List.range s.cities.length).map fun j => (i, j)).filter
    fun p => decide (p.1 < p.2) && decide (matGet s.roadMatrix p.1 p.2 = 1)

/-- Spec-side description of the full road table: the §4.3 pairs in order,
rendered as `"<name1>-<name2>"` with the stored budget value, numbered
sequentially from 1. -/
def roadTableSpec (s : RwandaState) : List (Nat × String × ℚ) :=
  numberFrom 1 ((roadPairsSpec s).map fun p =>
    ((s.cities.getD p.1 default).name ++ "-" ++ (s.cities.getD p.2 default).name,
      matGetQ s.budgetMatrix p.1 p.2))

instance {ε α : Type} [DecidableEq ε] [DecidableEq α] : DecidableEq (Except ε α) := fun a b =>
  match a, b with
  | .ok x, .ok y => decidable_of_iff (x = y) (by simp)
  | .ok _, .error _ => isFalse (by simp)
  | .error _, .ok _ => isFalse (by simp)
  | .error e, .error f => decidable_of_iff (e = f) (by simp)

/-- A matrix is an `n × n` square: `n` rows, each of length `n`. -/
def Square {α : Type} (m : List (List α)) (n : Nat) : Prop :=
  m.length = n ∧ ∀ r ∈ m, r.length = n

instance {α : Type} (m : List (List α)) (n : Nat) : Decidable (Square m n) := by
  unfold Square
  infer_instance

/-! ### List-level helper lemmas -/

theorem getD_replicate {α : Type} (k j : Nat) (d : α) :
    (List.replicate k d).getD j d = d := by
  induction k generalizing j with
  | zero => simp [List.getD]
  | succ k ih =>
    cases j with
    | zero => simp [List.replicate]
    | succ j => simpa [List.replicate] using ih j

theorem getD_append_replicate {α : Type} (r : List α) (k j : Nat) (d : α) :
    (r ++ List.replicate k d).getD j d = r.getD j d := by
  induction r generalizing j with
  | nil => simpa using getD_replicate k j d
  | cons a r ih =>
    cases j with
    | zero => simp [List.getD]
    | succ j => simpa [List.getD] using ih j

theorem list_set_self {α : Type} :
    ∀ (l : List α) (n : Nat) (h : n < l.length), l.set n (l.get ⟨n, h⟩) = l := by
  intro l
  induction l with
  | nil => intro n h; simp at h
  | cons a l ih =>
    intro n h
    cases n with
    | zero => simp
    | succ n => simpa using ih n (by simpa using h)

theorem getD_eq_get {α : Type} (l : List α) (i : Nat) (d : α) (h : i < l.length) :
    l.getD i d = l.get ⟨i, h⟩ := by
  simp [List.getD_eq_getElem?_getD, List.getElem?_eq_getElem h]

theorem getD_eq_default {α : Type} (l : List α) (i : Nat) (d : α) (h : l.length ≤ i) :
    l.getD i d = d := by
  simp [List.getD_eq_getElem?_getD, List.getElem?_eq_none h]

theorem getD_mem {α : Type} (l : List α) (i : Nat) (d : α) (h : i < l.length) :
    l.getD i d ∈ l := by
  rw [getD_eq_get l i d h]
  exact List.get_mem l i h

/-! ### Grid lemmas -/

theorem length_vecResize {α : Type} (v : List α) (n : Nat) (fill : α) :
    (vecResize v n fill).length = n := by
  simp [vecResize, List.length_take]
  omega

theorem vecResize_of_length_le {α : Type} (v : List α) (n : Nat) (fill : α)
    (h : v.length ≤ n) : vecResize v n fill = v ++ List.replicate (n - v.length) fill := by
  simp [vecResize, List.take_of_length_le h]

theorem Square_gridResize {α : Type} (m : List (List α)) (n : Nat) (z : α) :
    Square (gridResize m n z) n := by
  constructor
  · exact length_vecResize _ n _
  · intro r hr
    unfold gridResize vecResize at hr
    rcases List.mem_append.mp hr with h | h
    · rcases List.mem_of_mem_take h with h'
      rcases List.mem_map.mp h' with ⟨r₀, _, rfl⟩
      exact length_vecResize r₀ n z
    · rw [List.eq_of_mem_replicate h]
      simp

theorem gridGet_out_of_rows {α : Type} (m : List (List α)) (i j : Nat) (d : α)
    (h : m.length ≤ i) : gridGet m i j d = d := by
  unfold gridGet
  rw [getD_eq_default m i [] h]
  simp [List.getD]

theorem Square.gridGet_out {α : Type} {m : List (List α)} {n : Nat}
    (hm : Square m n) (i j : Nat) (d : α) (h : n ≤ i ∨ n ≤ j) :
    gridGet m i j d = d := by
  rcases h with h | h
  · exact gridGet_out_of_rows m i j d (hm.1 ▸ h)
  · unfold gridGet
    by_cases hi : i < m.length
    · have hrow : m.getD i [] ∈ m := getD_mem m i [] hi
      have : (m.getD i []).length = n := hm.2 _ hrow
      exact getD_eq_default _ j d (by omega)
    · rw [getD_eq_default m i [] (by omega)]
      simp [List.getD]

theorem gridGet_gridResize {α : Type} {m : List (List α)} {k : Nat}
    (hm : Square m k) {n : Nat} (hk : k ≤ n) (i j : Nat) (z : α) :
    gridGet (gridResize m n z) i j z = gridGet m i j z := by
  unfold gridResize
  rw [vecResize_of_length_le _ n _ (by simp [hm.1]; omega)]
  by_cases hi : i < m.length
  · unfold gridGet
    rw [List.getD_eq_getElem?_getD _ i ([] : List α),
      List.getElem?_append_left (by simpa using hi),
      List.getElem?_map, List.getElem?_eq_getElem hi]
    simp only [Option.map_some', Option.getD_some]
    have hrow : m[i] ∈ m := List.getElem_mem hi
    rw [vecResize_of_length_le _ n _ (by rw [hm.2 _ hrow]; omega)]
    rw [getD_append_replicate]
    rw [getD_eq_get m i ([] : List α) hi]
    simp [List.get_eq_getElem]
  · have h1 : gridGet m i j z = z := gridGet_out_of_rows m i j z (by omega)
    rw [h1]
    unfold gridGet
    by_cases h2 : i < n
    · rw [List.getD_eq_getElem?_getD _ i ([] : List α),
        List.getElem?_append_right (by simpa using hi)]
      simp only [List.length_map]
      rw [List.getElem?_replicate]
      have : i - m.length < n - m.length := by omega
      simp [this, getD_replicate]
    · rw [getD_eq_default _ i [] (by simp; omega)]
      simp [List.getD]

theorem gridInit_nil {α : Type} (n : Nat) (z : α) :
    gridInit ([] : List (List α)) n z = List.replicate n (List.replicate n z) := by
  simp [gridInit, vecResize]

theorem Square_replicate {α : Type} (n : Nat) (z : α) :
    Square (List.replicate n (List.replicate n z)) n := by
  constructor
  · simp
  · intro r hr
    rw [List.eq_of_mem_replicate hr]
    simp

theorem gridGet_replicate {α : Type} (n : Nat) (z : α) (i j : Nat) :
    gridGet (List.replicate n (List.replicate n z)) i j z = z := by
  unfold gridGet
  by_cases hi : i < n
  · rw [getD_eq_get _ i [] (by simpa using hi)]
    simp [getD_replicate]
  · rw [getD_eq_default _ i [] (by simpa using hi)]
    simp [List.getD]

theorem length_gridSet {α : Type} (m : List (List α)) (i j : Nat) (v : α) :
    (gridSet m i j v).length = m.length := by
  simp [gridSet]

theorem Square_gridSet {α : Type} {m : List (List α)} {n : Nat}
    (hm : Square m n) (i j : Nat) (v : α) (hi : i < n) :
    Square (gridSet m i j v) n := by
  constructor
  · rw [length_gridSet, hm.1]
  · intro r hr
    rcases List.mem_or_eq_of_mem_set hr with h | rfl
    · exact hm.2 _ h
    · rw [List.length_set]
      exact hm.2 _ (getD_mem m i [] (by rw [hm.1]; exact hi))

theorem gridGet_gridSet {α : Type} {m : List (List α)} {n : Nat}
    (hm : Square m n) {i j : Nat} (hi : i < n) (hj : j < n) (v : α) (a b : Nat) (d : α) :
    gridGet (gridSet m i j v) a b d =
      if a = i ∧ b = j then v else gridGet m a b d := by
  have hilen : i < m.length := by rw [hm.1]; exact hi
  have hrowlen : (m.getD i []).length = n := hm.2 _ (getD_mem m i [] hilen)
  unfold gridSet gridGet
  by_cases ha : a = i
  · subst ha
    rw [List.getD_eq_getElem?_getD _ a ([] : List α),
      List.getElem?_set_eq_of_lt _ (by simpa using hilen)]
    simp only [Option.getD_some]
    by_cases hb : b = j
    · subst hb
      rw [List.getD_eq_getElem?_getD,
        List.getElem?_set_eq_of_lt _ (by rw [hrowlen]; exact hj)]
      simp
    · rw [List.getD_eq_getElem?_getD, List.getElem?_set_ne (fun h => hb h.symm)]
      rw [List.getD_eq_getElem?_getD _ a ([] : List α),
        List.getElem?_eq_getElem hilen]
      simp [hb, List.getD_eq_getElem?_getD, List.get_eq_getElem]
  · rw [List.getD_eq_getElem?_getD _ a ([] : List α),
      List.getElem?_set_ne (fun h => ha h.symm)]
    simp [ha, List.getD_eq_getElem?_getD]

theorem gridSet_get_self {α : Type} {m : List (List α)} {n : Nat}
    (hm : Square m n) {i j : Nat} (hi : i < n) (hj : j < n) (d : α) :
    gridSet m i j (gridGet m i j d) = m := by
  have hilen : i < m.length := by rw [hm.1]; exact hi
  have hrowlen : (m.getD i []).length = n := hm.2 _ (getD_mem m i [] hilen)
  unfold gridSet gridGet
  rw [getD_eq_get _ j d (by rw [hrowlen]; exact hj), list_set_self]
  rw [getD_eq_get _ i ([] : List α) hilen, list_set_self]

/-! ### Registry lemmas -/

theorem findCityIndex_spec (cs : List City) (name : String)
    (h : findCityIndex cs name ≠ -1) :
    ∃ p, ∃ hp : p < cs.length, (cs.get ⟨p, hp⟩).name = name ∧
      findCityIndex cs name = (cs.get ⟨p, hp⟩).index := by
  induction cs with
  | nil => simp [findCityIndex] at h
  | cons c rest ih =>
    by_cases hc : c.name = name
    · exact ⟨0, by simp, by simpa [findCityIndex, hc]⟩
    · have h' : findCityIndex rest name ≠ -1 := by
        simpa [findCityIndex, hc] using h
      obtain ⟨p, hp, hname, hidx⟩ := ih h'
      exact ⟨p + 1, by simpa using Nat.succ_lt_succ hp,
        by simpa [findCityIndex, hc] using ⟨hname, hidx⟩⟩

theorem findCityIndex_of_not_hasName (cs : List City) (name : String)
    (h : hasName cs name = false) : findCityIndex cs name = -1 := by
  induction cs with
  | nil => simp [findCityIndex]
  | cons c rest ih =>
    simp only [hasName, List.any_cons, Bool.or_eq_false_iff] at h
    have hc : c.name ≠ name := by
      intro heq
      simp [heq] at h
    simp only [findCityIndex, hc, if_false]
    exact ih (by simpa [hasName] using h.2)

theorem hasName_of_findCityIndex (cs : List City) (name : String)
    (h : findCityIndex cs name ≠ -1) : hasName cs name = true := by
  obtain ⟨p, hp, hname, _⟩ := findCityIndex_spec cs name h
  simp only [hasName, List.any_eq_true]
  exact ⟨cs.get ⟨p, hp⟩, List.get_mem cs p hp,
    by simp [List.get_eq_getElem] at hname; simp [hname]⟩

theorem findCityIndex_ne_neg_one_of_mem (cs : List City) (name : String)
    (hpos : ∀ c ∈ cs, 1 ≤ c.index) (c : City) (hc : c ∈ cs) (hcn : c.name = name) :
    findCityIndex cs name ≠ -1 := by
  induction cs with
  | nil => simp at hc
  | cons a rest ih =>
    by_cases ha : a.name = name
    · have h1 : 1 ≤ a.index := hpos a (by simp)
      simp only [findCityIndex]
      rw [if_pos ha]
      omega
    · simp only [findCityIndex]
      rw [if_neg ha]
      rcases List.mem_cons.mp hc with rfl | hmem
      · exact absurd hcn ha
      · exact ih (fun c' hc' => hpos c' (by simp [hc'])) hmem

theorem findCityIndex_neg_one_iff (cs : List City) (name : String)
    (hpos : ∀ c ∈ cs, 1 ≤ c.index) :
    findCityIndex cs name = -1 ↔ hasName cs name = false := by
  constructor
  · intro h
    cases hhn : hasName cs name
    · rfl
    · obtain ⟨c, hc, hcn⟩ := List.any_eq_true.mp hhn
      exact absurd h
        (findCityIndex_ne_neg_one_of_mem cs name hpos c hc (by simpa using hcn))
  · exact findCityIndex_of_not_hasName cs name

theorem renameFirst_map_index (cs : List City) (o n : String) :
    (renameFirst cs o n).map City.index = cs.map City.index := by
  induction cs with
  | nil => rfl
  | cons c rest ih =>
    by_cases hc : c.name = o
    · simp [renameFirst, hc]
    · simp [renameFirst, hc, ih]

theorem renameFirst_length (cs : List City) (o n : String) :
    (renameFirst cs o n).length = cs.length := by
  have := renameFirst_map_index cs o n
  have h1 := congrArg List.length this
  simpa using h1

theorem renameFirst_eq_set (cs : List City) (o n : String)
    (h : findCityIndex cs o ≠ -1) :
    ∃ p, ∃ hp : p < cs.length, (cs.get ⟨p, hp⟩).name = o ∧
      renameFirst cs o n = cs.set p ⟨(cs.get ⟨p, hp⟩).index, n⟩ := by
  induction cs with
  | nil => simp [findCityIndex] at h
  | cons c rest ih =>
    by_cases hc : c.name = o
    · exact ⟨0, by simp, by simpa using hc, by simp [renameFirst, hc]⟩
    · have h' : findCityIndex rest o ≠ -1 := by
        simpa [findCityIndex, hc] using h
      obtain ⟨p, hp, hname, heq⟩ := ih h'
      refine ⟨p + 1, by simpa using Nat.succ_lt_succ hp, by simpa using hname, ?_⟩
      simp [renameFirst, hc, heq]

/-! ### The reachable-state invariant (spec §3) -/

/-- The data-model invariant of spec §3, holding in every reachable state:
city k (0-based storage position) carries index `k+1`; both matrices are
`count × count`; both matrices are symmetric; road entries are 0/1; a
nonzero budget entry implies the road exists. -/
structure Inv (s : RwandaState) : Prop where
  idx : ∀ k, (h : k < s.cities.length) → (s.cities.get ⟨k, h⟩).index = (k : Int) + 1
  roadSq : Square s.roadMatrix s.cities.length
  budSq : Square s.budgetMatrix s.cities.length
  roadSymm : ∀ i j, matGet s.roadMatrix i j = matGet s.roadMatrix j i
  budSymm : ∀ i j, matGetQ s.budgetMatrix i j = matGetQ s.budgetMatrix j i
  road01 : ∀ i j, matGet s.roadMatrix i j = 0 ∨ matGet s.roadMatrix i j = 1
  budRoad : ∀ i j, matGetQ s.budgetMatrix i j ≠ 0 → matGet s.roadMatrix i j = 1

theorem Inv.index_pos {s : RwandaState} (hs : Inv s) : ∀ c ∈ s.cities, 1 ≤ c.index := by
  intro c hc
  obtain ⟨⟨k, hk⟩, rfl⟩ := List.mem_iff_get.mp hc
  rw [hs.idx k hk]
  omega

theorem Inv.resolve {s : RwandaState} (hs : Inv s) {name : String}
    (h : findCityIndex s.cities name ≠ -1) :
    ∃ p, ∃ hp : p < s.cities.length, cityPos s name = p ∧
      findCityIndex s.cities name = (p : Int) + 1 ∧
      (s.cities.get ⟨p, hp⟩).name = name := by
  obtain ⟨p, hp, hname, hidxeq⟩ := findCityIndex_spec s.cities name h
  have hfind : findCityIndex s.cities name = (p : Int) + 1 := by
    rw [hidxeq, hs.idx p hp]
  refine ⟨p, hp, ?_, hfind, hname⟩
  unfold cityPos
  rw [hfind]
  omega

theorem nextIndex_eq_of_idx {cs : List City}
    (hidx : ∀ k, (h : k < cs.length) → (cs.get ⟨k, h⟩).index = (k : Int) + 1) :
    nextIndex cs = (cs.length : Int) + 1 := by
  unfold nextIndex
  cases hcs : cs.getLast? with
  | none =>
    have : cs = [] := List.getLast?_eq_none_iff.mp hcs
    simp [this]
  | some c =>
    have hne : cs ≠ [] := by
      intro hnil
      rw [hnil] at hcs
      simp at hcs
    have hlen : 0 < cs.length := List.length_pos.mpr hne
    have h1 : cs.getLast? = some (cs.get ⟨cs.length - 1, by omega⟩) := by
      rw [List.getLast?_eq_getLast _ hne, List.getLast_eq_get]
    rw [hcs] at h1
    have hc : c = cs.get ⟨cs.length - 1, by omega⟩ := by
      injection h1
    show c.index + 1 = (cs.length : Int) + 1
    rw [hc, hidx (cs.length - 1) (by omega)]
    have : ((cs.length - 1 : Nat) : Int) = (cs.length : Int) - 1 := by omega
    rw [this]
    ring

/-- Exact shape of a failing `addCity`. -/
theorem addCity_dup (s : RwandaState) (name : String)
    (h : findCityIndex s.cities name ≠ -1) :
    addCity s name = .error .DuplicateName := by
  simp [addCity, h]

/-- Exact shape of a successful `addCity` when the matrices are empty. -/
theorem addCity_ok_empty (s : RwandaState) (name : String)
    (h : findCityIndex s.cities name = -1) (he : s.roadMatrix.isEmpty) :
    addCity s name = .ok ⟨s.cities ++ [⟨nextIndex s.cities, name⟩],
      initSq s.roadMatrix (s.cities.length + 1),
      initSqQ s.budgetMatrix (s.cities.length + 1)⟩ := by
  simp [addCity, h, he]

/-- Exact shape of a successful `addCity` when the matrices are nonempty. -/
theorem addCity_ok_nonempty (s : RwandaState) (name : String)
    (h : findCityIndex s.cities name = -1) (he : ¬ s.roadMatrix.isEmpty) :
    addCity s name = .ok ⟨s.cities ++ [⟨nextIndex s.cities, name⟩],
      resizeSq s.roadMatrix (s.cities.length + 1),
      resizeSqQ s.budgetMatrix (s.cities.length + 1)⟩ := by
  simp [addCity, h, he]

theorem idx_append {cs : List City} {name : String}
    (hidx : ∀ k, (h : k < cs.length) → (cs.get ⟨k, h⟩).index = (k : Int) + 1) :
    ∀ (k : Nat), (hk : k < (cs ++ [(⟨(cs.length : Int) + 1, name⟩ : City)]).length) →
      ((cs ++ [(⟨(cs.length : Int) + 1, name⟩ : City)]).get ⟨k, hk⟩).index = (k : Int) + 1 := by
  intro k hk
  have hk' : k < cs.length + 1 := by simpa using hk
  rcases Nat.lt_or_ge k cs.length with hkn | hkn
  · have heq : (cs ++ [(⟨(cs.length : Int) + 1, name⟩ : City)]).get ⟨k, hk⟩ =
        cs.get ⟨k, hkn⟩ := List.get_append k hkn
    rw [heq, hidx k hkn]
  · have hkeq : k = cs.length := by omega
    have heq : (cs ++ [(⟨(cs.length : Int) + 1, name⟩ : City)]).get ⟨k, hk⟩ =
        ⟨(cs.length : Int) + 1, name⟩ := by
      simp only [List.get_eq_getElem]
      exact List.getElem_concat_length cs _ k hkeq (by simpa using hk)
    rw [heq, hkeq]

theorem Inv.addCity_ok {s : RwandaState} (hs : Inv s) {name : String}
    {s' : RwandaState} (h : addCity s name = .ok s') :
    s'.cities = s.cities ++ [⟨(s.cities.length : Int) + 1, name⟩] ∧ Inv s' := by
  by_cases hguard : findCityIndex s.cities name ≠ -1
  · rw [addCity_dup s name hguard] at h
    exact absurd h (by simp)
  · have hfind : findCityIndex s.cities name = -1 := by
      by_contra hc
      exact hguard hc
    have hnext : nextIndex s.cities = (s.cities.length : Int) + 1 :=
      nextIndex_eq_of_idx hs.idx
    by_cases hempty : s.roadMatrix.isEmpty
    · rw [addCity_ok_empty s name hfind hempty] at h
      have hroadnil : s.roadMatrix = [] := by
        cases hm : s.roadMatrix
        · rfl
        · rw [hm] at hempty
          simp at hempty
      have hn0 : s.cities.length = 0 := by
        have h1 := hs.roadSq.1
        rw [hroadnil] at h1
        exact h1.symm
      have hbudnil : s.budgetMatrix = [] := by
        have h1 := hs.budSq.1
        rw [hn0] at h1
        exact List.length_eq_zero.mp h1
      have hs' : s' = ⟨s.cities ++ [⟨nextIndex s.cities, name⟩],
          initSq s.roadMatrix (s.cities.length + 1),
          initSqQ s.budgetMatrix (s.cities.length + 1)⟩ := by
        injection h with h'
        exact h'.symm
      subst hs'
      rw [hnext]
      refine ⟨rfl, ?_⟩
      have hlen' : (s.cities ++ [(⟨(s.cities.length : Int) + 1, name⟩ : City)]).length =
          s.cities.length + 1 := by simp
      constructor
      · exact idx_append hs.idx
      · rw [hlen', hroadnil, initSq, gridInit_nil]
        exact Square_replicate _ _
      · rw [hlen', hbudnil, initSqQ, gridInit_nil]
        exact Square_replicate _ _
      · intro i j
        simp only [hroadnil, initSq, gridInit_nil, matGet, gridGet_replicate]
      · intro i j
        simp only [hbudnil, initSqQ, gridInit_nil, matGetQ, gridGet_replicate]
      · intro i j
        simp [hroadnil, initSq, gridInit_nil, matGet, gridGet_replicate]
      · intro i j hbne
        exact absurd (by simp only [hbudnil, initSqQ, gridInit_nil, matGetQ,
          gridGet_replicate] : matGetQ (initSqQ s.budgetMatrix (s.cities.length + 1)) i j = 0) hbne
    · rw [addCity_ok_nonempty s name hfind hempty] at h
      have hs' : s' = ⟨s.cities ++ [⟨nextIndex s.cities, name⟩],
          resizeSq s.roadMatrix (s.cities.length + 1),
          resizeSqQ s.budgetMatrix (s.cities.length + 1)⟩ := by
        injection h with h'
        exact h'.symm
      subst hs'
      rw [hnext]
      refine ⟨rfl, ?_⟩
      have hlen' : (s.cities ++ [(⟨(s.cities.length : Int) + 1, name⟩ : City)]).length =
          s.cities.length + 1 := by simp
      have hroad : ∀ i j, matGet (resizeSq s.roadMatrix (s.cities.length + 1)) i j =
          matGet s.roadMatrix i j := fun i j =>
        gridGet_gridResize hs.roadSq (by omega) i j 0
      have hbud : ∀ i j, matGetQ (resizeSqQ s.budgetMatrix (s.cities.length + 1)) i j =
          matGetQ s.budgetMatrix i j := fun i j =>
        gridGet_gridResize hs.budSq (by omega) i j 0
      constructor
      · exact idx_append hs.idx
      · rw [hlen']
        exact Square_gridResize s.roadMatrix (s.cities.length + 1) 0
      · rw [hlen']
        exact Square_gridResize s.budgetMatrix (s.cities.length + 1) 0
      · intro i j
        rw [hroad, hroad]
        exact hs.roadSymm i j
      · intro i j
        rw [hbud, hbud]
        exact hs.budSymm i j
      · intro i j
        rw [hroad]
        exact hs.road01 i j
      · intro i j hbne
        rw [hroad]
        exact hs.budRoad i j (by rwa [hbud] at hbne)

/-- Exact failure shape of `addRoad` on a self-loop. -/
theorem addRoad_self (s : RwandaState) (c : String) :
    addRoad s c c = .error .SelfLoop := by
  simp [addRoad]

/-- Exact failure shape of `addRoad` on an unresolved name. -/
theorem addRoad_notfound (s : RwandaState) (c1 c2 : String) (hne : c1 ≠ c2)
    (h : findCityIndex s.cities c1 = -1 ∨ findCityIndex s.cities c2 = -1) :
    addRoad s c1 c2 = .error .CityNotFound := by
  simp [addRoad, hne, h]

/-- Exact failure shape of `addRoad` on an existing road. -/
theorem addRoad_dup (s : RwandaState) (c1 c2 : String) (hne : c1 ≠ c2)
    (h1 : findCityIndex s.cities c1 ≠ -1) (h2 : findCityIndex s.cities c2 ≠ -1)
    (hroad : matGet s.roadMatrix (cityPos s c1) (cityPos s c2) = 1) :
    addRoad s c1 c2 = .error .DuplicateRoad := by
  simp [addRoad, hne, h1, h2, cityPos] at hroad ⊢
  simp [hroad]

/-- Exact success shape of `addRoad`. -/
theorem addRoad_ok_eq (s : RwandaState) (c1 c2 : String) (hne : c1 ≠ c2)
    (h1 : findCityIndex s.cities c1 ≠ -1) (h2 : findCityIndex s.cities c2 ≠ -1)
    (hroad : matGet s.roadMatrix (cityPos s c1) (cityPos s c2) ≠ 1) :
    addRoad s c1 c2 = .ok ⟨s.cities,
      matSet (matSet s.roadMatrix (cityPos s c1) (cityPos s c2) 1)
        (cityPos s c2) (cityPos s c1) 1, s.budgetMatrix⟩ := by
  simp [addRoad, hne, h1, h2, cityPos] at hroad ⊢
  simp [hroad]

/-- `addRoad` returns either its success shape or one of its three errors. -/
theorem addRoad_cases (s : RwandaState) (c1 c2 : String) :
    addRoad s c1 c2 = .error .SelfLoop ∨
    addRoad s c1 c2 = .error .CityNotFound ∨
    addRoad s c1 c2 = .error .DuplicateRoad ∨
    (c1 ≠ c2 ∧ findCityIndex s.cities c1 ≠ -1 ∧ findCityIndex s.cities c2 ≠ -1 ∧
      matGet s.roadMatrix (cityPos s c1) (cityPos s c2) ≠ 1 ∧
      addRoad s c1 c2 = .ok ⟨s.cities,
        matSet (matSet s.roadMatrix (cityPos s c1) (cityPos s c2) 1)
          (cityPos s c2) (cityPos s c1) 1, s.budgetMatrix⟩) := by
  by_cases hne : c1 = c2
  · subst hne
    exact Or.inl (addRoad_self s c1)
  · by_cases h1 : findCityIndex s.cities c1 = -1
    · exact Or.inr (Or.inl (addRoad_notfound s c1 c2 hne (Or.inl h1)))
    · by_cases h2 : findCityIndex s.cities c2 = -1
      · exact Or.inr (Or.inl (addRoad_notfound s c1 c2 hne (Or.inr h2)))
      · by_cases hroad : matGet s.roadMatrix (cityPos s c1) (cityPos s c2) = 1
        · exact Or.inr (Or.inr (Or.inl (addRoad_dup s c1 c2 hne h1 h2 hroad)))
        · exact Or.inr (Or.inr (Or.inr ⟨hne, h1, h2, hroad,
            addRoad_ok_eq s c1 c2 hne h1 h2 hroad⟩))

theorem Inv.addRoad_ok {s : RwandaState} (hs : Inv s) {c1 c2 : String}
    {s' : RwandaState} (h : addRoad s c1 c2 = .ok s') : Inv s' := by
  rcases addRoad_cases s c1 c2 with hc | hc | hc | ⟨hne, h1, h2, hroad, hc⟩ <;>
    rw [hc] at h
  · exact absurd h (by simp)
  · exact absurd h (by simp)
  · exact absurd h (by simp)
  · have hs' : s' = ⟨s.cities,
        matSet (matSet s.roadMatrix (cityPos s c1) (cityPos s c2) 1)
          (cityPos s c2) (cityPos s c1) 1, s.budgetMatrix⟩ := by
      injection h with h'
      exact h'.symm
    subst hs'
    obtain ⟨p, hp, hpeq, _, _⟩ := hs.resolve h1
    obtain ⟨q, hq, hqeq, _, _⟩ := hs.resolve h2
    rw [hpeq, hqeq]
    set n := s.cities.length with hn
    have hsq1 : Square (gridSet s.roadMatrix p q 1) n :=
      Square_gridSet hs.roadSq p q 1 hp
    have hget : ∀ a b, matGet (matSet (matSet s.roadMatrix p q 1) q p 1) a b =
        if a = q ∧ b = p then 1 else if a = p ∧ b = q then 1
        else matGet s.roadMatrix a b := by
      intro a b
      show gridGet (gridSet (gridSet s.roadMatrix p q 1) q p 1) a b 0 = _
      rw [gridGet_gridSet hsq1 hq hp 1 a b 0,
        gridGet_gridSet hs.roadSq hp hq 1 a b 0]
      rfl
    constructor
    · exact hs.idx
    · show Square (gridSet (gridSet s.roadMatrix p q 1) q p 1) n
      exact Square_gridSet hsq1 q p 1 hq
    · exact hs.budSq
    · intro a b
      rw [hget a b, hget b a]
      by_cases hab1 : a = q ∧ b = p
      · simp [hab1.1, hab1.2]
      · by_cases hab2 : a = p ∧ b = q
        · simp [hab2.1, hab2.2]
        · have hba1 : ¬ (b = q ∧ a = p) := fun hcontra =>
            hab2 ⟨hcontra.2, hcontra.1⟩
          have hba2 : ¬ (b = p ∧ a = q) := fun hcontra =>
            hab1 ⟨hcontra.2, hcontra.1⟩
          rw [if_neg hab1, if_neg hab2, if_neg hba1, if_neg hba2]
          exact hs.roadSymm a b
    · exact hs.budSymm
    · intro a b
      rw [hget a b]
      by_cases hab1 : a = q ∧ b = p
      · simp [hab1]
      · by_cases hab2 : a = p ∧ b = q
        · simp [hab1, hab2]
        · rw [if_neg hab1, if_neg hab2]
          exact hs.road01 a b
    · intro a b hbne
      rw [hget a b]
      by_cases hab1 : a = q ∧ b = p
      · simp [hab1]
      · by_cases hab2 : a = p ∧ b = q
        · simp [hab1, hab2]
        · rw [if_neg hab1, if_neg hab2]
          exact hs.budRoad a b hbne

/-- Exact failure shape of `addBudget` on a negative amount. -/
theorem addBudget_neg (s : RwandaState) (c1 c2 : String) (b : ℚ) (hb : b < 0) :
    addBudget s c1 c2 b = .error .NegativeBudget := by
  simp [addBudget, hb]

/-- Exact failure shape of `addBudget` on an unresolved name. -/
theorem addBudget_notfound (s : RwandaState) (c1 c2 : String) (b : ℚ) (hb : ¬ b < 0)
    (h : findCityIndex s.cities c1 = -1 ∨ findCityIndex s.cities c2 = -1) :
    addBudget s c1 c2 b = .error .CityNotFound := by
  simp [addBudget, hb, h]

/-- Exact failure shape of `addBudget` when no road exists. -/
theorem addBudget_noroad (s : RwandaState) (c1 c2 : String) (b : ℚ) (hb : ¬ b < 0)
    (h1 : findCityIndex s.cities c1 ≠ -1) (h2 : findCityIndex s.cities c2 ≠ -1)
    (hroad : matGet s.roadMatrix (cityPos s c1) (cityPos s c2) = 0) :
    addBudget s c1 c2 b = .error .NoRoad := by
  simp [addBudget, hb, h1, h2, cityPos] at hroad ⊢
  simp [hroad]

/-- Exact success shape of `addBudget`. -/
theorem addBudget_ok_eq (s : RwandaState) (c1 c2 : String) (b : ℚ) (hb : ¬ b < 0)
    (h1 : findCityIndex s.cities c1 ≠ -1) (h2 : findCityIndex s.cities c2 ≠ -1)
    (hroad : matGet s.roadMatrix (cityPos s c1) (cityPos s c2) ≠ 0) :
    addBudget s c1 c2 b = .ok ⟨s.cities, s.roadMatrix,
      matSetQ (matSetQ s.budgetMatrix (cityPos s c1) (cityPos s c2) b)
        (cityPos s c2) (cityPos s c1) b⟩ := by
  simp [addBudget, hb, h1, h2, cityPos] at hroad ⊢
  simp [hroad]

/-- `addBudget` returns either its success shape or one of its three errors. -/
theorem addBudget_cases (s : RwandaState) (c1 c2 : String) (b : ℚ) :
    addBudget s c1 c2 b = .error .NegativeBudget ∨
    addBudget s c1 c2 b = .error .CityNotFound ∨
    addBudget s c1 c2 b = .error .NoRoad ∨
    (¬ b < 0 ∧ findCityIndex s.cities c1 ≠ -1 ∧ findCityIndex s.cities c2 ≠ -1 ∧
      matGet s.roadMatrix (cityPos s c1) (cityPos s c2) ≠ 0 ∧
      addBudget s c1 c2 b = .ok ⟨s.cities, s.roadMatrix,
        matSetQ (matSetQ s.budgetMatrix (cityPos s c1) (cityPos s c2) b)
          (cityPos s c2) (cityPos s c1) b⟩) := by
  by_cases hb : b < 0
  · exact Or.inl (addBudget_neg s c1 c2 b hb)
  · by_cases h1 : findCityIndex s.cities c1 = -1
    · exact Or.inr (Or.inl (addBudget_notfound s c1 c2 b hb (Or.inl h1)))
    · by_cases h2 : findCityIndex s.cities c2 = -1
      · exact Or.inr (Or.inl (addBudget_notfound s c1 c2 b hb (Or.inr h2)))
      · by_cases hroad : matGet s.roadMatrix (cityPos s c1) (cityPos s c2) = 0
        · exact Or.inr (Or.inr (Or.inl (addBudget_noroad s c1 c2 b hb h1 h2 hroad)))
        · exact Or.inr (Or.inr (Or.inr ⟨hb, h1, h2, hroad,
            addBudget_ok_eq s c1 c2 b hb h1 h2 hroad⟩))

theorem Inv.addBudget_ok {s : RwandaState} (hs : Inv s) {c1 c2 : String} {b : ℚ}
    {s' : RwandaState} (h : addBudget s c1 c2 b = .ok s') : Inv s' := by
  rcases addBudget_cases s c1 c2 b with hc | hc | hc | ⟨hb, h1, h2, hroad, hc⟩ <;>
    rw [hc] at h
  · exact absurd h (by simp)
  · exact absurd h (by simp)
  · exact absurd h (by simp)
  · have hs' : s' = ⟨s.cities, s.roadMatrix,
        matSetQ (matSetQ s.budgetMatrix (cityPos s c1) (cityPos s c2) b)
          (cityPos s c2) (cityPos s c1) b⟩ := by
      injection h with h'
      exact h'.symm
    subst hs'
    obtain ⟨p, hp, hpeq, _, _⟩ := hs.resolve h1
    obtain ⟨q, hq, hqeq, _, _⟩ := hs.resolve h2
    rw [hpeq, hqeq]
    rw [hpeq, hqeq] at hroad
    set n := s.cities.length with hn
    have hroad1 : matGet s.roadMatrix p q = 1 := (hs.road01 p q).resolve_left hroad
    have hroad1' : matGet s.roadMatrix q p = 1 := by
      rw [← hs.roadSymm p q]
      exact hroad1
    have hsq1 : Square (gridSet s.budgetMatrix p q b) n :=
      Square_gridSet hs.budSq p q b hp
    have hget : ∀ a c, matGetQ (matSetQ (matSetQ s.budgetMatrix p q b) q p b) a c =
        if a = q ∧ c = p then b else if a = p ∧ c = q then b
        else matGetQ s.budgetMatrix a c := by
      intro a c
      show gridGet (gridSet (gridSet s.budgetMatrix p q b) q p b) a c 0 = _
      rw [gridGet_gridSet hsq1 hq hp b a c 0,
        gridGet_gridSet hs.budSq hp hq b a c 0]
      rfl
    constructor
    · exact hs.idx
    · exact hs.roadSq
    · show Square (gridSet (gridSet s.budgetMatrix p q b) q p b) n
      exact Square_gridSet hsq1 q p b hq
    · exact hs.roadSymm
    · intro a c
      rw [hget a c, hget c a]
      by_cases hab1 : a = q ∧ c = p
      · simp [hab1.1, hab1.2]
      · by_cases hab2 : a = p ∧ c = q
        · simp [hab2.1, hab2.2]
        · have hba1 : ¬ (c = q ∧ a = p) := fun hcontra =>
            hab2 ⟨hcontra.2, hcontra.1⟩
          have hba2 : ¬ (c = p ∧ a = q) := fun hcontra =>
            hab1 ⟨hcontra.2, hcontra.1⟩
          rw [if_neg hab1, if_neg hab2, if_neg hba1, if_neg hba2]
          exact hs.budSymm a c
    · exact hs.road01
    · intro a c hbne
      rw [hget a c] at hbne
      by_cases hab1 : a = q ∧ c = p
      · rw [hab1.1, hab1.2]
        exact hroad1'
      · by_cases hab2 : a = p ∧ c = q
        · rw [hab2.1, hab2.2]
          exact hroad1
        · rw [if_neg hab1, if_neg hab2] at hbne
          exact hs.budRoad a c hbne

/-- Exact failure shape of `editCity` on identical names (checked first in
the code, before existence of `oldName`). -/
theorem editCity_same (s : RwandaState) (c : String) :
    editCity s c c = .error .SameName := by
  simp [editCity]

/-- Exact failure shape of `editCity` on an absent old name. -/
theorem editCity_notfound (s : RwandaState) (o n : String) (hne : o ≠ n)
    (h : findCityIndex s.cities o = -1) :
    editCity s o n = .error .NotFound := by
  simp [editCity, hne, h]

/-- Exact failure shape of `editCity` on an existing new name. -/
theorem editCity_dup (s : RwandaState) (o n : String) (hne : o ≠ n)
    (ho : findCityIndex s.cities o ≠ -1) (hn : findCityIndex s.cities n ≠ -1) :
    editCity s o n = .error .DuplicateName := by
  simp [editCity, hne, ho, hn]

/-- Exact success shape of `editCity`. -/
theorem editCity_ok_eq (s : RwandaState) (o n : String) (hne : o ≠ n)
    (ho : findCityIndex s.cities o ≠ -1) (hn : findCityIndex s.cities n = -1) :
    editCity s o n = .ok ⟨renameFirst s.cities o n, s.roadMatrix, s.budgetMatrix⟩ := by
  simp [editCity, hne, ho, hn]

/-- `editCity` returns either its success shape or one of its three errors. -/
theorem editCity_cases (s : RwandaState) (o n : String) :
    editCity s o n = .error .SameName ∨
    editCity s o n = .error .NotFound ∨
    editCity s o n = .error .DuplicateName ∨
    (o ≠ n ∧ findCityIndex s.cities o ≠ -1 ∧ findCityIndex s.cities n = -1 ∧
      editCity s o n = .ok ⟨renameFirst s.cities o n, s.roadMatrix, s.budgetMatrix⟩) := by
  by_cases hne : o = n
  · subst hne
    exact Or.inl (editCity_same s o)
  · by_cases ho : findCityIndex s.cities o = -1
    · exact Or.inr (Or.inl (editCity_notfound s o n hne ho))
    · by_cases hn : findCityIndex s.cities n = -1
      · exact Or.inr (Or.inr (Or.inr ⟨hne, ho, hn, editCity_ok_eq s o n hne ho hn⟩))
      · exact Or.inr (Or.inr (Or.inl (editCity_dup s o n hne ho hn)))

theorem get_index_eq_of_map_eq {l₁ l₂ : List City}
    (h : l₁.map City.index = l₂.map City.index) (k : Nat)
    (h₁ : k < l₁.length) (h₂ : k < l₂.length) :
    (l₁.get ⟨k, h₁⟩).index = (l₂.get ⟨k, h₂⟩).index := by
  induction l₁ generalizing l₂ k with
  | nil => simp at h₁
  | cons a l ih =>
    cases l₂ with
    | nil => simp at h₂
    | cons b l' =>
      simp only [List.map_cons, List.cons.injEq] at h
      cases k with
      | zero => simpa using h.1
      | succ k => exact ih h.2 k (by simpa using h₁) (by simpa using h₂)

theorem renameFirst_idx {cs : List City} {o n : String}
    (hidx : ∀ k, (h : k < cs.length) → (cs.get ⟨k, h⟩).index = (k : Int) + 1) :
    ∀ k, (h : k < (renameFirst cs o n).length) →
      ((renameFirst cs o n).get ⟨k, h⟩).index = (k : Int) + 1 := by
  intro k hk
  have hk' : k < cs.length := by
    rw [← renameFirst_length cs o n]
    exact hk
  rw [get_index_eq_of_map_eq (renameFirst_map_index cs o n) k hk hk']
  exact hidx k hk'

theorem Inv.editCity_ok {s : RwandaState} (hs : Inv s) {o n : String}
    {s' : RwandaState} (h : editCity s o n = .ok s') : Inv s' := by
  rcases editCity_cases s o n with hc | hc | hc | ⟨hne, ho, hn, hc⟩ <;>
    rw [hc] at h
  · exact absurd h (by simp)
  · exact absurd h (by simp)
  · exact absurd h (by simp)
  · have hs' : s' = ⟨renameFirst s.cities o n, s.roadMatrix, s.budgetMatrix⟩ := by
      injection h with h'
      exact h'.symm
    subst hs'
    have hlen : (renameFirst s.cities o n).length = s.cities.length :=
      renameFirst_length s.cities o n
    constructor
    · exact renameFirst_idx hs.idx
    · show Square s.roadMatrix (renameFirst s.cities o n).length
      rw [hlen]
      exact hs.roadSq
    · show Square s.budgetMatrix (renameFirst s.cities o n).length
      rw [hlen]
      exact hs.budSq
    · exact hs.roadSymm
    · exact hs.budSymm
    · exact hs.road01
    · exact hs.budRoad

/-! ### The invariant holds in every reachable state -/

theorem Inv_emptyState : Inv emptyState := by
  constructor
  · intro k h
    simp [emptyState] at h
  · exact ⟨rfl, by simp [emptyState]⟩
  · exact ⟨rfl, by simp [emptyState]⟩
  · intro i j
    simp [emptyState, matGet, gridGet, List.getD]
  · intro i j
    simp [emptyState, matGetQ, gridGet, List.getD]
  · intro i j
    simp [emptyState, matGet, gridGet, List.getD]
  · intro i j hbne
    exact absurd (by simp [emptyState, matGetQ, gridGet, List.getD]) hbne

theorem Inv.applyOp {s : RwandaState} (hs : Inv s) (op : Op) :
    Inv (RwandaInfra.applyOp s op) := by
  cases op with
  | addCity n =>
    show Inv (match addCity s n with | .ok s' => s' | .error _ => s)
    cases h : addCity s n with
    | ok s' => exact (hs.addCity_ok h).2
    | error _ => exact hs
  | addRoad a b =>
    show Inv (match addRoad s a b with | .ok s' => s' | .error _ => s)
    cases h : addRoad s a b with
    | ok s' => exact hs.addRoad_ok h
    | error _ => exact hs
  | setBudget a b q =>
    show Inv (match addBudget s a b q with | .ok s' => s' | .error _ => s)
    cases h : addBudget s a b q with
    | ok s' => exact hs.addBudget_ok h
    | error _ => exact hs
  | renameCity o n =>
    show Inv (match editCity s o n with | .ok s' => s' | .error _ => s)
    cases h : editCity s o n with
    | ok s' => exact hs.editCity_ok h
    | error _ => exact hs

theorem Inv_foldl (ops : List Op) : ∀ s : RwandaState, Inv s →
    Inv (ops.foldl RwandaInfra.applyOp s) := by
  induction ops with
  | nil => intro s hs; exact hs
  | cons op rest ih =>
    intro s hs
    exact ih (RwandaInfra.applyOp s op) (hs.applyOp op)

theorem Inv_run (ops : List Op) : Inv (run ops) :=
  Inv_foldl ops emptyState Inv_emptyState

/-! ### `maxIndex` under the invariant -/

theorem foldr_max_le {l : List Int} {b : Int} (h : ∀ x ∈ l, x ≤ b) (hb : 0 ≤ b) :
    l.foldr max 0 ≤ b := by
  induction l with
  | nil => simpa using hb
  | cons a l ih =>
    simp only [List.foldr_cons, max_le_iff]
    exact ⟨h a (by simp), ih fun x hx => h x (by simp [hx])⟩

theorem le_foldr_max {l : List Int} {x : Int} (h : x ∈ l) : x ≤ l.foldr max 0 := by
  induction l with
  | nil => simp at h
  | cons a l ih =>
    rcases List.mem_cons.mp h with rfl | hmem
    · simp
    · simp only [List.foldr_cons]
      exact le_max_of_le_right (ih hmem)

theorem maxIndex_eq_length {cs : List City}
    (hidx : ∀ k, (h : k < cs.length) → (cs.get ⟨k, h⟩).index = (k : Int) + 1)
    (hne : cs ≠ []) : maxIndex cs = (cs.length : Int) := by
  unfold maxIndex
  have hlen : 0 < cs.length := List.length_pos.mpr hne
  apply le_antisymm
  · apply foldr_max_le _ (by positivity)
    intro x hx
    obtain ⟨c, hc, rfl⟩ := List.mem_map.mp hx
    obtain ⟨⟨k, hk⟩, rfl⟩ := List.mem_iff_get.mp hc
    rw [hidx k hk]
    omega
  · have hmem : (cs.get ⟨cs.length - 1, by omega⟩).index ∈ cs.map City.index :=
      List.mem_map.mpr ⟨cs.get ⟨cs.length - 1, by omega⟩, List.get_mem cs _ _, rfl⟩
    have h1 := le_foldr_max hmem
    rw [hidx (cs.length - 1) (by omega)] at h1
    have : ((cs.length - 1 : Nat) : Int) = (cs.length : Int) - 1 := by omega
    rw [this] at h1
    omega

/-! ### Claims -/

/-- C1: for every sequence of core operations starting from the empty
graph, and for all in-range positions `i` and `j`, the adjacency matrix
satisfies `A[i][j] = A[j][i]` and the budget matrix satisfies
`B[i][j] = B[j][i]` after every operation. -/
theorem claim_C1 (ops : List Op) (i j : Nat)
    (hi : i < (run ops).cities.length) (hj : j < (run ops).cities.length) :
    matGet (run ops).roadMatrix i j = matGet (run ops).roadMatrix j i ∧
    matGetQ (run ops).budgetMatrix i j = matGetQ (run ops).budgetMatrix j i :=
  ⟨(Inv_run ops).roadSymm i j, (Inv_run ops).budSymm i j⟩

theorem claim_C1_witness :
    0 < (run [Op.addCity "Kigali", Op.addCity "Huye",
      Op.addRoad "Kigali" "Huye"]).cities.length ∧
    1 < (run [Op.addCity "Kigali", Op.addCity "Huye",
      Op.addRoad "Kigali" "Huye"]).cities.length ∧
    (matGet (run [Op.addCity "Kigali", Op.addCity "Huye",
        Op.addRoad "Kigali" "Huye"]).roadMatrix 0 1 =
      matGet (run [Op.addCity "Kigali", Op.addCity "Huye",
        Op.addRoad "Kigali" "Huye"]).roadMatrix 1 0 ∧
      matGetQ (run [Op.addCity "Kigali", Op.addCity "Huye",
        Op.addRoad "Kigali" "Huye"]).budgetMatrix 0 1 =
      matGetQ (run [Op.addCity "Kigali", Op.addCity "Huye",
        Op.addRoad "Kigali" "Huye"]).budgetMatrix 1 0) :=
  ⟨by decide, by decide,
    claim_C1 [Op.addCity "Kigali", Op.addCity "Huye", Op.addRoad "Kigali" "Huye"]
      0 1 (by decide) (by decide)⟩

/-- C2: for every sequence of core operations starting from the empty
graph, and for all in-range positions `i` and `j`, a nonzero budget entry
`B[i][j]` implies the adjacency entry `A[i][j]` equals 1, after every
operation. -/
theorem claim_C2 (ops : List Op) (i j : Nat)
    (hi : i < (run ops).cities.length) (hj : j < (run ops).cities.length)
    (hB : matGetQ (run ops).budgetMatrix i j ≠ 0) :
    matGet (run ops).roadMatrix i j = 1 :=
  (Inv_run ops).budRoad i j hB

theorem claim_C2_witness :
    0 < (run [Op.addCity "Kigali", Op.addCity "Huye", Op.addRoad "Kigali" "Huye",
      Op.setBudget "Kigali" "Huye" 5]).cities.length ∧
    1 < (run [Op.addCity "Kigali", Op.addCity "Huye", Op.addRoad "Kigali" "Huye",
      Op.setBudget "Kigali" "Huye" 5]).cities.length ∧
    matGetQ (run [Op.addCity "Kigali", Op.addCity "Huye", Op.addRoad "Kigali" "Huye",
      Op.setBudget "Kigali" "Huye" 5]).budgetMatrix 0 1 ≠ 0 ∧
    matGet (run [Op.addCity "Kigali", Op.addCity "Huye", Op.addRoad "Kigali" "Huye",
      Op.setBudget "Kigali" "Huye" 5]).roadMatrix 0 1 = 1 :=
  ⟨by decide, by decide, by decide,
    claim_C2 [Op.addCity "Kigali", Op.addCity "Huye", Op.addRoad "Kigali" "Huye",
      Op.setBudget "Kigali" "Huye" 5] 0 1 (by decide) (by decide) (by decide)⟩

/-- C9: in every reachable state, once both names resolve, the zero-based
positions `index - 1` used by `addRoad` and `addBudget` are in bounds for
both matrices, row and column (the operations are total; no matrix access
is out of bounds). -/
theorem claim_C9 (ops : List Op) (c1 c2 : String)
    (h1 : findCityIndex (run ops).cities c1 ≠ -1)
    (h2 : findCityIndex (run ops).cities c2 ≠ -1) :
    cityPos (run ops) c1 < (run ops).roadMatrix.length ∧
    cityPos (run ops) c2 < ((run ops).roadMatrix.getD (cityPos (run ops) c1) []).length ∧
    cityPos (run ops) c2 < (run ops).roadMatrix.length ∧
    cityPos (run ops) c1 < ((run ops).roadMatrix.getD (cityPos (run ops) c2) []).length ∧
    cityPos (run ops) c1 < (run ops).budgetMatrix.length ∧
    cityPos (run ops) c2 < ((run ops).budgetMatrix.getD (cityPos (run ops) c1) []).length ∧
    cityPos (run ops) c2 < (run ops).budgetMatrix.length ∧
    cityPos (run ops) c1 < ((run ops).budgetMatrix.getD (cityPos (run ops) c2) []).length := by
  have hs := Inv_run ops
  obtain ⟨p, hp, hpeq, _, _⟩ := hs.resolve h1
  obtain ⟨q, hq, hqeq, _, _⟩ := hs.resolve h2
  rw [hpeq, hqeq]
  have hrl : (run ops).roadMatrix.length = (run ops).cities.length := hs.roadSq.1
  have hbl : (run ops).budgetMatrix.length = (run ops).cities.length := hs.budSq.1
  have hrow : ∀ i, i < (run ops).cities.length →
      ((run ops).roadMatrix.getD i []).length = (run ops).cities.length := by
    intro i hi
    exact hs.roadSq.2 _ (getD_mem _ i [] (by omega))
  have hbrow : ∀ i, i < (run ops).cities.length →
      ((run ops).budgetMatrix.getD i []).length = (run ops).cities.length := by
    intro i hi
    exact hs.budSq.2 _ (getD_mem _ i [] (by omega))
  refine ⟨by omega, ?_, by omega, ?_, by omega, ?_, by omega, ?_⟩
  · rw [hrow p hp]; omega
  · rw [hrow q hq]; omega
  · rw [hbrow p hp]; omega
  · rw [hbrow q hq]; omega

theorem claim_C9_witness :
    findCityIndex (run [Op.addCity "Kigali", Op.addCity "Huye"]).cities "Kigali" ≠ -1 ∧
    findCityIndex (run [Op.addCity "Kigali", Op.addCity "Huye"]).cities "Huye" ≠ -1 ∧
    cityPos (run [Op.addCity "Kigali", Op.addCity "Huye"]) "Kigali" <
      (run [Op.addCity "Kigali", Op.addCity "Huye"]).roadMatrix.length :=
  ⟨by decide, by decide,
    (claim_C9 [Op.addCity "Kigali", Op.addCity "Huye"] "Kigali" "Huye"
      (by decide) (by decide)).1⟩

/-- C10: in every reachable state, the city at 0-based storage position `k`
has index `k + 1` (so indices are the contiguous range `1..count()` in
storage order), and both matrices are square of dimension `count()`. -/
theorem claim_C10 (ops : List Op) :
    (∀ k, (h : k < (run ops).cities.length) →
      ((run ops).cities.get ⟨k, h⟩).index = (k : Int) + 1) ∧
    (run ops).roadMatrix.length = (run ops).cities.length ∧
    (∀ r ∈ (run ops).roadMatrix, r.length = (run ops).cities.length) ∧
    (run ops).budgetMatrix.length = (run ops).cities.length ∧
    (∀ r ∈ (run ops).budgetMatrix, r.length = (run ops).cities.length) :=
  ⟨(Inv_run ops).idx, (Inv_run ops).roadSq.1, (Inv_run ops).roadSq.2,
    (Inv_run ops).budSq.1, (Inv_run ops).budSq.2⟩

theorem claim_C10_witness :
    1 < (run [Op.addCity "Kigali", Op.addCity "Huye"]).cities.length ∧
    ((run [Op.addCity "Kigali", Op.addCity "Huye"]).cities.get
      ⟨1, by decide⟩).index = (1 : Int) + 1 ∧
    (run [Op.addCity "Kigali", Op.addCity "Huye"]).roadMatrix.length =
      (run [Op.addCity "Kigali", Op.addCity "Huye"]).cities.length :=
  ⟨by decide,
    (claim_C10 [Op.addCity "Kigali", Op.addCity "Huye"]).1 1 (by decide),
    (claim_C10 [Op.addCity "Kigali", Op.addCity "Huye"]).2.1⟩

/-- C3: in every reachable registry state, if `name` is not present,
`addCity` succeeds, increases `count()` by exactly 1, and assigns the new
city the index `old_max + 1` (or 1 if the registry was empty); if `name`
is present (case-sensitive exact match), it fails with `DuplicateName` and
the state — in particular `count()` — is unchanged. -/
theorem claim_C3 (ops : List Op) (name : String) :
    (hasName (run ops).cities name = false →
      ∃ s', addCity (run ops) name = .ok s' ∧
        s'.cities.length = (run ops).cities.length + 1 ∧
        (s'.cities.getLast?).map City.index =
          some (if (run ops).cities.isEmpty then 1 else maxIndex (run ops).cities + 1) ∧
        (s'.cities.getLast?).map City.name = some name) ∧
    (hasName (run ops).cities name = true →
      addCity (run ops) name = .error .DuplicateName ∧
      applyOp (run ops) (.addCity name) = run ops) := by
  have hs := Inv_run ops
  constructor
  · intro habsent
    have hfind : findCityIndex (run ops).cities name = -1 :=
      findCityIndex_of_not_hasName _ name habsent
    have hok : ∃ s', addCity (run ops) name = .ok s' ∧
        s'.cities = (run ops).cities ++ [⟨nextIndex (run ops).cities, name⟩] := by
      by_cases he : (run ops).roadMatrix.isEmpty
      · exact ⟨_, addCity_ok_empty (run ops) name hfind he, rfl⟩
      · exact ⟨_, addCity_ok_nonempty (run ops) name hfind he, rfl⟩
    obtain ⟨s', hok', hcities'⟩ := hok
    refine ⟨s', hok', ?_, ?_, ?_⟩
    · rw [hcities']
      simp
    · rw [hcities', List.getLast?_concat]
      have hnext : nextIndex (run ops).cities = ((run ops).cities.length : Int) + 1 :=
        nextIndex_eq_of_idx hs.idx
      by_cases hemp : (run ops).cities.isEmpty
      · have : (run ops).cities = [] := by
          cases hcs : (run ops).cities
          · rfl
          · rw [hcs] at hemp; simp at hemp
        simp [hemp, hnext, this, nextIndex]
      · have hne : (run ops).cities ≠ [] := by
          intro hnil
          rw [hnil] at hemp
          simp at hemp
        rw [maxIndex_eq_length hs.idx hne]
        simp [hemp, hnext]
    · rw [hcities', List.getLast?_concat]
      simp
  · intro hpresent
    have hfind : findCityIndex (run ops).cities name ≠ -1 := by
      intro hcontra
      rw [(findCityIndex_neg_one_iff _ name hs.index_pos).mp hcontra] at hpresent
      exact absurd hpresent (by simp)
    refine ⟨addCity_dup (run ops) name hfind, ?_⟩
    show (match addCity (run ops) name with | .ok s' => s' | .error _ => run ops) = run ops
    rw [addCity_dup (run ops) name hfind]

theorem claim_C3_witness :
    (hasName (run [Op.addCity "Kigali"]).cities "Huye" = false ∧
      ∃ s', addCity (run [Op.addCity "Kigali"]) "Huye" = .ok s' ∧
        s'.cities.length = (run [Op.addCity "Kigali"]).cities.length + 1 ∧
        (s'.cities.getLast?).map City.index =
          some (if (run [Op.addCity "Kigali"]).cities.isEmpty then 1
            else maxIndex (run [Op.addCity "Kigali"]).cities + 1) ∧
        (s'.cities.getLast?).map City.name = some "Huye") ∧
    (hasName (run [Op.addCity "Kigali"]).cities "Kigali" = true ∧
      addCity (run [Op.addCity "Kigali"]) "Kigali" = .error .DuplicateName ∧
      applyOp (run [Op.addCity "Kigali"]) (.addCity "Kigali") = run [Op.addCity "Kigali"]) :=
  ⟨⟨by decide, (claim_C3 [Op.addCity "Kigali"] "Huye").1 (by decide)⟩,
    ⟨by decide, (claim_C3 [Op.addCity "Kigali"] "Kigali").2 (by decide)⟩⟩

/-- C4: in every reachable state, `addRoad` fails with `SelfLoop` when the
two names are equal; otherwise with `CityNotFound` when either name does
not resolve; otherwise with `DuplicateRoad` when the adjacency entry is
already 1; otherwise it succeeds and sets `A[i][j] = A[j][i] = 1` at the
zero-based positions `index - 1`, leaving the city list and the budget
matrix unchanged. On every failure the whole state is unchanged. -/
theorem claim_C4 (ops : List Op) (c1 c2 : String) :
    (c1 = c2 → addRoad (run ops) c1 c2 = .error .SelfLoop) ∧
    (c1 ≠ c2 →
      (findCityIndex (run ops).cities c1 = -1 ∨ findCityIndex (run ops).cities c2 = -1) →
      addRoad (run ops) c1 c2 = .error .CityNotFound) ∧
    (c1 ≠ c2 → findCityIndex (run ops).cities c1 ≠ -1 →
      findCityIndex (run ops).cities c2 ≠ -1 →
      matGet (run ops).roadMatrix (cityPos (run ops) c1) (cityPos (run ops) c2) = 1 →
      addRoad (run ops) c1 c2 = .error .DuplicateRoad) ∧
    (c1 ≠ c2 → findCityIndex (run ops).cities c1 ≠ -1 →
      findCityIndex (run ops).cities c2 ≠ -1 →
      matGet (run ops).roadMatrix (cityPos (run ops) c1) (cityPos (run ops) c2) ≠ 1 →
      ∃ s', addRoad (run ops) c1 c2 = .ok s' ∧
        matGet s'.roadMatrix (cityPos (run ops) c1) (cityPos (run ops) c2) = 1 ∧
        matGet s'.roadMatrix (cityPos (run ops) c2) (cityPos (run ops) c1) = 1 ∧
        s'.cities = (run ops).cities ∧ s'.budgetMatrix = (run ops).budgetMatrix) ∧
    (∀ e, addRoad (run ops) c1 c2 = .error e →
      applyOp (run ops) (.addRoad c1 c2) = run ops) := by
  have hs := Inv_run ops
  refine ⟨?_, ?_, ?_, ?_, ?_⟩
  · intro heq
    subst heq
    exact addRoad_self (run ops) c1
  · intro hne h
    exact addRoad_notfound (run ops) c1 c2 hne h
  · intro hne h1 h2 hroad
    exact addRoad_dup (run ops) c1 c2 hne h1 h2 hroad
  · intro hne h1 h2 hroad
    refine ⟨_, addRoad_ok_eq (run ops) c1 c2 hne h1 h2 hroad, ?_, ?_, rfl, rfl⟩
    all_goals
      obtain ⟨p, hp, hpeq, _, _⟩ := hs.resolve h1
      obtain ⟨q, hq, hqeq, _, _⟩ := hs.resolve h2
      rw [hpeq, hqeq]
      have hsq1 : Square (gridSet (run ops).roadMatrix p q 1) (run ops).cities.length :=
        Square_gridSet hs.roadSq p q 1 hp
      show gridGet (gridSet (gridSet (run ops).roadMatrix p q 1) q p 1) _ _ 0 = 1
      rw [gridGet_gridSet hsq1 hq hp 1 _ _ 0]
    · by_cases hpq : p = q
      · simp [hpq]
      · rw [if_neg (fun hcontra => hpq hcontra.1)]
        rw [gridGet_gridSet hs.roadSq hp hq 1 p q 0]
        simp
    · simp
  · intro e he
    show (match addRoad (run ops) c1 c2 with | .ok s' => s' | .error _ => run ops) = run ops
    rw [he]

theorem claim_C4_witness :
    (addRoad (run [Op.addCity "Kigali"]) "Kigali" "Kigali" = .error .SelfLoop) ∧
    ("Kigali" ≠ "Huye" ∧
      findCityIndex (run [Op.addCity "Kigali", Op.addCity "Huye"]).cities "Kigali" ≠ -1 ∧
      findCityIndex (run [Op.addCity "Kigali", Op.addCity "Huye"]).cities "Huye" ≠ -1 ∧
      matGet (run [Op.addCity "Kigali", Op.addCity "Huye"]).roadMatrix
        (cityPos (run [Op.addCity "Kigali", Op.addCity "Huye"]) "Kigali")
        (cityPos (run [Op.addCity "Kigali", Op.addCity "Huye"]) "Huye") ≠ 1 ∧
      ∃ s', addRoad (run [Op.addCity "Kigali", Op.addCity "Huye"]) "Kigali" "Huye" = .ok s' ∧
        matGet s'.roadMatrix
          (cityPos (run [Op.addCity "Kigali", Op.addCity "Huye"]) "Kigali")
          (cityPos (run [Op.addCity "Kigali", Op.addCity "Huye"]) "Huye") = 1 ∧
        matGet s'.roadMatrix
          (cityPos (run [Op.addCity "Kigali", Op.addCity "Huye"]) "Huye")
          (cityPos (run [Op.addCity "Kigali", Op.addCity "Huye"]) "Kigali") = 1 ∧
        s'.cities = (run [Op.addCity "Kigali", Op.addCity "Huye"]).cities ∧
        s'.budgetMatrix = (run [Op.addCity "Kigali", Op.addCity "Huye"]).budgetMatrix) :=
  ⟨(claim_C4 [Op.addCity "Kigali"] "Kigali" "Kigali").1 rfl,
    ⟨by decide, by decide, by decide, by decide,
      (claim_C4 [Op.addCity "Kigali", Op.addCity "Huye"] "Kigali" "Huye").2.2.2.1
        (by decide) (by decide) (by decide) (by decide)⟩⟩

/-- C5: in every reachable state, `addBudget` fails with `NegativeBudget`
when the amount is negative; otherwise with `CityNotFound` when either name
does not resolve; otherwise with `NoRoad` when `A[i][j] = 0`; otherwise it
succeeds and sets `B[i][j] = B[j][i] = amount`, overwriting any prior value
(so an immediate identical call succeeds and leaves the state unchanged).
On every failure the whole state — in particular `B` — is unchanged. -/
theorem claim_C5 (ops : List Op) (c1 c2 : String) (amount : ℚ) :
    (amount < 0 → addBudget (run ops) c1 c2 amount = .error .NegativeBudget) ∧
    (¬ amount < 0 →
      (findCityIndex (run ops).cities c1 = -1 ∨ findCityIndex (run ops).cities c2 = -1) →
      addBudget (run ops) c1 c2 amount = .error .CityNotFound) ∧
    (¬ amount < 0 → findCityIndex (run ops).cities c1 ≠ -1 →
      findCityIndex (run ops).cities c2 ≠ -1 →
      matGet (run ops).roadMatrix (cityPos (run ops) c1) (cityPos (run ops) c2) = 0 →
      addBudget (run ops) c1 c2 amount = .error .NoRoad) ∧
    (¬ amount < 0 → findCityIndex (run ops).cities c1 ≠ -1 →
      findCityIndex (run ops).cities c2 ≠ -1 →
      matGet (run ops).roadMatrix (cityPos (run ops) c1) (cityPos (run ops) c2) ≠ 0 →
      ∃ s', addBudget (run ops) c1 c2 amount = .ok s' ∧
        matGetQ s'.budgetMatrix (cityPos (run ops) c1) (cityPos (run ops) c2) = amount ∧
        matGetQ s'.budgetMatrix (cityPos (run ops) c2) (cityPos (run ops) c1) = amount ∧
        s'.cities = (run ops).cities ∧ s'.roadMatrix = (run ops).roadMatrix ∧
        addBudget s' c1 c2 amount = .ok s') ∧
    (∀ e, addBudget (run ops) c1 c2 amount = .error e →
      applyOp (run ops) (.setBudget c1 c2 amount) = run ops) := by
  have hs := Inv_run ops
  refine ⟨?_, ?_, ?_, ?_, ?_⟩
  · intro hneg
    exact addBudget_neg (run ops) c1 c2 amount hneg
  · intro hneg h
    exact addBudget_notfound (run ops) c1 c2 amount hneg h
  · intro hneg h1 h2 hroad
    exact addBudget_noroad (run ops) c1 c2 amount hneg h1 h2 hroad
  · intro hneg h1 h2 hroad
    obtain ⟨p, hp, hpeq, _, _⟩ := hs.resolve h1
    obtain ⟨q, hq, hqeq, _, _⟩ := hs.resolve h2
    have hok := addBudget_ok_eq (run ops) c1 c2 amount hneg h1 h2 hroad
    set s' : RwandaState := ⟨(run ops).cities, (run ops).roadMatrix,
      matSetQ (matSetQ (run ops).budgetMatrix (cityPos (run ops) c1) (cityPos (run ops) c2)
        amount) (cityPos (run ops) c2) (cityPos (run ops) c1) amount⟩ with hs'def
    have hsq1 : Square (gridSet (run ops).budgetMatrix p q amount) (run ops).cities.length :=
      Square_gridSet hs.budSq p q amount hp
    have hget : ∀ a b, matGetQ s'.budgetMatrix a b =
        if a = q ∧ b = p then amount else if a = p ∧ b = q then amount
        else matGetQ (run ops).budgetMatrix a b := by
      intro a b
      show gridGet (gridSet (gridSet (run ops).budgetMatrix
        (cityPos (run ops) c1) (cityPos (run ops) c2) amount)
        (cityPos (run ops) c2) (cityPos (run ops) c1) amount) a b 0 = _
      rw [hpeq, hqeq, gridGet_gridSet hsq1 hq hp amount a b 0,
        gridGet_gridSet hs.budSq hp hq amount a b 0]
      rfl
    have hBpq : matGetQ s'.budgetMatrix p q = amount := by
      rw [hget p q]
      by_cases hpq : p = q
      · simp [hpq]
      · rw [if_neg (fun hcontra => hpq hcontra.1)]
        simp
    have hBqp : matGetQ s'.budgetMatrix q p = amount := by
      rw [hget q p]
      simp
    refine ⟨s', hok, by rw [hpeq, hqeq]; exact hBpq, by rw [hpeq, hqeq]; exact hBqp,
      rfl, rfl, ?_⟩
    have hsInv' : Inv s' := hs.addBudget_ok hok
    have hfind1 : findCityIndex s'.cities c1 = findCityIndex (run ops).cities c1 := rfl
    have hfind2 : findCityIndex s'.cities c2 = findCityIndex (run ops).cities c2 := rfl
    have hpos1 : cityPos s' c1 = cityPos (run ops) c1 := rfl
    have hpos2 : cityPos s' c2 = cityPos (run ops) c2 := rfl
    have hroad' : matGet s'.roadMatrix (cityPos s' c1) (cityPos s' c2) ≠ 0 := hroad
    have hok2 := addBudget_ok_eq s' c1 c2 amount hneg h1 h2 hroad'
    rw [hok2]
    have hset1 : matSetQ s'.budgetMatrix (cityPos s' c1) (cityPos s' c2) amount =
        s'.budgetMatrix := by
      show gridSet s'.budgetMatrix (cityPos s' c1) (cityPos s' c2) amount = s'.budgetMatrix
      rw [hpos1, hpos2, hpeq, hqeq]
      have hgs := gridSet_get_self hsInv'.budSq
        (show p < s'.cities.length from hp) (show q < s'.cities.length from hq) (0 : ℚ)
      rw [show gridGet s'.budgetMatrix p q 0 = amount from hBpq] at hgs
      exact hgs
    have hset2 : matSetQ (matSetQ s'.budgetMatrix (cityPos s' c1) (cityPos s' c2) amount)
        (cityPos s' c2) (cityPos s' c1) amount = s'.budgetMatrix := by
      rw [hset1]
      show gridSet s'.budgetMatrix (cityPos s' c2) (cityPos s' c1) amount = s'.budgetMatrix
      rw [hpos1, hpos2, hpeq, hqeq]
      have hgs := gridSet_get_self hsInv'.budSq
        (show q < s'.cities.length from hq) (show p < s'.cities.length from hp) (0 : ℚ)
      rw [show gridGet s'.budgetMatrix q p 0 = amount from hBqp] at hgs
      exact hgs
    rw [hset2]
  · intro e he
    show (match addBudget (run ops) c1 c2 amount with | .ok s' => s' | .error _ => run ops) =
      run ops
    rw [he]

theorem claim_C5_witness :
    (¬ (5 : ℚ) < 0 ∧
      findCityIndex (run [Op.addCity "Kigali", Op.addCity "Huye",
        Op.addRoad "Kigali" "Huye"]).cities "Kigali" ≠ -1 ∧
      findCityIndex (run [Op.addCity "Kigali", Op.addCity "Huye",
        Op.addRoad "Kigali" "Huye"]).cities "Huye" ≠ -1 ∧
      matGet (run [Op.addCity "Kigali", Op.addCity "Huye",
          Op.addRoad "Kigali" "Huye"]).roadMatrix
        (cityPos (run [Op.addCity "Kigali", Op.addCity "Huye",
          Op.addRoad "Kigali" "Huye"]) "Kigali")
        (cityPos (run [Op.addCity "Kigali", Op.addCity "Huye",
          Op.addRoad "Kigali" "Huye"]) "Huye") ≠ 0 ∧
      ∃ s', addBudget (run [Op.addCity "Kigali", Op.addCity "Huye",
          Op.addRoad "Kigali" "Huye"]) "Kigali" "Huye" 5 = .ok s' ∧
        matGetQ s'.budgetMatrix
          (cityPos (run [Op.addCity "Kigali", Op.addCity "Huye",
            Op.addRoad "Kigali" "Huye"]) "Kigali")
          (cityPos (run [Op.addCity "Kigali", Op.addCity "Huye",
            Op.addRoad "Kigali" "Huye"]) "Huye") = 5 ∧
        matGetQ s'.budgetMatrix
          (cityPos (run [Op.addCity "Kigali", Op.addCity "Huye",
            Op.addRoad "Kigali" "Huye"]) "Huye")
          (cityPos (run [Op.addCity "Kigali", Op.addCity "Huye",
            Op.addRoad "Kigali" "Huye"]) "Kigali") = 5 ∧
        s'.cities = (run [Op.addCity "Kigali", Op.addCity "Huye",
          Op.addRoad "Kigali" "Huye"]).cities ∧
        s'.roadMatrix = (run [Op.addCity "Kigali", Op.addCity "Huye",
          Op.addRoad "Kigali" "Huye"]).roadMatrix ∧
        addBudget s' "Kigali" "Huye" 5 = .ok s') ∧
    addBudget (run []) "Kigali" "Huye" 5 = .error .CityNotFound :=
  ⟨⟨by decide, by decide, by decide, by decide,
    (claim_C5 [Op.addCity "Kigali", Op.addCity "Huye", Op.addRoad "Kigali" "Huye"]
        "Kigali" "Huye" 5).2.2.2.1 (by decide) (by decide) (by decide) (by decide)⟩,
    (claim_C5 [] "Kigali" "Huye" 5).2.1 (by decide) (Or.inl (by decide))⟩

/-- C6 counterexample: the claim says that when `oldName` is absent, rename
fails with `NotFound` even when `oldName = newName`; but `editCity` checks
`oldName == newName` first (src/main.cpp line 264), so with the absent name
"Huye" on both sides it fails with `SameName`, not `NotFound`. -/
theorem claim_C6_counterexample :
    hasName (run [Op.addCity "Kigali"]).cities "Huye" = false ∧
    editCity (run [Op.addCity "Kigali"]) "Huye" "Huye" = .error OpError.SameName ∧
    editCity (run [Op.addCity "Kigali"]) "Huye" "Huye" ≠ .error OpError.NotFound :=
  ⟨by decide, by decide, by decide⟩

/-- C6 (amended): in every reachable state, if `oldName = newName` the
rename fails with `SameName` regardless of presence (this check comes
first); otherwise, if `oldName` is absent it fails with `NotFound`;
otherwise, if `newName` is already present it fails with `DuplicateName`;
otherwise it succeeds, updating the one city's name in place and
preserving its index. -/
theorem claim_C6 (ops : List Op) (oldName newName : String) :
    (oldName = newName → editCity (run ops) oldName newName = .error .SameName) ∧
    (oldName ≠ newName → hasName (run ops).cities oldName = false →
      editCity (run ops) oldName newName = .error .NotFound) ∧
    (oldName ≠ newName → hasName (run ops).cities oldName = true →
      hasName (run ops).cities newName = true →
      editCity (run ops) oldName newName = .error .DuplicateName) ∧
    (oldName ≠ newName → hasName (run ops).cities oldName = true →
      hasName (run ops).cities newName = false →
      ∃ s', editCity (run ops) oldName newName = .ok s' ∧
        s'.roadMatrix = (run ops).roadMatrix ∧
        s'.budgetMatrix = (run ops).budgetMatrix ∧
        ∃ p, ∃ hp : p < (run ops).cities.length,
          ((run ops).cities.get ⟨p, hp⟩).name = oldName ∧
          s'.cities = (run ops).cities.set p
            ⟨((run ops).cities.get ⟨p, hp⟩).index, newName⟩) := by
  have hs := Inv_run ops
  have hbridge : ∀ nm : String, hasName (run ops).cities nm = false ↔
      findCityIndex (run ops).cities nm = -1 := fun nm =>
    ⟨findCityIndex_of_not_hasName _ nm,
      fun h => (findCityIndex_neg_one_iff _ nm hs.index_pos).mp h⟩
  have hbridge' : ∀ nm : String, hasName (run ops).cities nm = true →
      findCityIndex (run ops).cities nm ≠ -1 := by
    intro nm htrue hcontra
    rw [(hbridge nm).mpr hcontra] at htrue
    exact absurd htrue (by simp)
  refine ⟨?_, ?_, ?_, ?_⟩
  · intro heq
    subst heq
    exact editCity_same (run ops) oldName
  · intro hne habsent
    exact editCity_notfound (run ops) oldName newName hne ((hbridge oldName).mp habsent)
  · intro hne hold hnew
    exact editCity_dup (run ops) oldName newName hne (hbridge' oldName hold)
      (hbridge' newName hnew)
  · intro hne hold hnew
    have ho : findCityIndex (run ops).cities oldName ≠ -1 := hbridge' oldName hold
    have hn : findCityIndex (run ops).cities newName = -1 := (hbridge newName).mp hnew
    obtain ⟨p, hp, hname, hset⟩ := renameFirst_eq_set (run ops).cities oldName newName ho
    exact ⟨_, editCity_ok_eq (run ops) oldName newName hne ho hn, rfl, rfl,
      p, hp, hname, hset⟩

theorem claim_C6_witness :
    ("Kigali" ≠ "Gisenyi" ∧
      hasName (run [Op.addCity "Kigali"]).cities "Kigali" = true ∧
      hasName (run [Op.addCity "Kigali"]).cities "Gisenyi" = false ∧
      ∃ s', editCity (run [Op.addCity "Kigali"]) "Kigali" "Gisenyi" = .ok s' ∧
        s'.roadMatrix = (run [Op.addCity "Kigali"]).roadMatrix ∧
        s'.budgetMatrix = (run [Op.addCity "Kigali"]).budgetMatrix ∧
        ∃ p, ∃ hp : p < (run [Op.addCity "Kigali"]).cities.length,
          ((run [Op.addCity "Kigali"]).cities.get ⟨p, hp⟩).name = "Kigali" ∧
          s'.cities = (run [Op.addCity "Kigali"]).cities.set p
            ⟨((run [Op.addCity "Kigali"]).cities.get ⟨p, hp⟩).index, "Gisenyi"⟩) ∧
    editCity (run [Op.addCity "Kigali"]) "Kigali" "Kigali" = .error .SameName :=
  ⟨⟨by decide, by decide, by decide,
    (claim_C6 [Op.addCity "Kigali"] "Kigali" "Gisenyi").2.2.2
      (by decide) (by decide) (by decide)⟩,
    (claim_C6 [Op.addCity "Kigali"] "Kigali" "Kigali").1 rfl⟩

/-- C7: for every reachable state and every rename call (successful or
failed), all city indices, the entire adjacency matrix, and the entire
budget matrix are unchanged; and a rename whose target name already belongs
to another city fails and leaves the whole state unchanged. -/
theorem claim_C7 (ops : List Op) (oldName newName : String) :
    (applyOp (run ops) (.renameCity oldName newName)).roadMatrix = (run ops).roadMatrix ∧
    (applyOp (run ops) (.renameCity oldName newName)).budgetMatrix = (run ops).budgetMatrix ∧
    (applyOp (run ops) (.renameCity oldName newName)).cities.map City.index =
      (run ops).cities.map City.index ∧
    (hasName (run ops).cities newName = true → oldName ≠ newName →
      (∃ e, editCity (run ops) oldName newName = .error e) ∧
      applyOp (run ops) (.renameCity oldName newName) = run ops) := by
  have hs := Inv_run ops
  have happ : applyOp (run ops) (.renameCity oldName newName) =
      (match editCity (run ops) oldName newName with
        | .ok s' => s' | .error _ => run ops) := rfl
  have hframe : (applyOp (run ops) (.renameCity oldName newName)).roadMatrix =
        (run ops).roadMatrix ∧
      (applyOp (run ops) (.renameCity oldName newName)).budgetMatrix =
        (run ops).budgetMatrix ∧
      (applyOp (run ops) (.renameCity oldName newName)).cities.map City.index =
        (run ops).cities.map City.index := by
    rcases editCity_cases (run ops) oldName newName with hc | hc | hc | ⟨_, _, _, hc⟩ <;>
      rw [happ, hc]
    · exact ⟨rfl, rfl, rfl⟩
    · exact ⟨rfl, rfl, rfl⟩
    · exact ⟨rfl, rfl, rfl⟩
    · exact ⟨rfl, rfl, renameFirst_map_index (run ops).cities oldName newName⟩
  refine ⟨hframe.1, hframe.2.1, hframe.2.2, ?_⟩
  intro hnew hne
  have hnfind : findCityIndex (run ops).cities newName ≠ -1 := by
    intro hcontra
    rw [(findCityIndex_neg_one_iff _ newName hs.index_pos).mp hcontra] at hnew
    exact absurd hnew (by simp)
  by_cases ho : findCityIndex (run ops).cities oldName = -1
  · have herr := editCity_notfound (run ops) oldName newName hne ho
    exact ⟨⟨_, herr⟩, by rw [happ, herr]⟩
  · have herr := editCity_dup (run ops) oldName newName hne ho hnfind
    exact ⟨⟨_, herr⟩, by rw [happ, herr]⟩

theorem claim_C7_witness :
    (applyOp (run [Op.addCity "Kigali", Op.addCity "Huye"])
      (.renameCity "Kigali" "Huye")).roadMatrix =
      (run [Op.addCity "Kigali", Op.addCity "Huye"]).roadMatrix ∧
    hasName (run [Op.addCity "Kigali", Op.addCity "Huye"]).cities "Huye" = true ∧
    "Kigali" ≠ "Huye" ∧
    (∃ e, editCity (run [Op.addCity "Kigali", Op.addCity "Huye"]) "Kigali" "Huye" =
      .error e) ∧
    applyOp (run [Op.addCity "Kigali", Op.addCity "Huye"]) (.renameCity "Kigali" "Huye") =
      run [Op.addCity "Kigali", Op.addCity "Huye"] :=
  ⟨(claim_C7 [Op.addCity "Kigali", Op.addCity "Huye"] "Kigali" "Huye").1,
    by decide, by decide,
    ((claim_C7 [Op.addCity "Kigali", Op.addCity "Huye"] "Kigali" "Huye").2.2.2
      (by decide) (by decide)).1,
    ((claim_C7 [Op.addCity "Kigali", Op.addCity "Huye"] "Kigali" "Huye").2.2.2
      (by decide) (by decide)).2⟩

theorem flatMap_congr_mem {α β : Type} {l : List α} {f g : α → List β}
    (h : ∀ a ∈ l, f a = g a) : l.flatMap f = l.flatMap g := by
  induction l with
  | nil => rfl
  | cons a l ih =>
    simp only [List.flatMap_cons]
    rw [h a (by simp), ih fun x hx => h x (by simp [hx])]

theorem road_rows_inner (s : RwandaState) (i : Nat) :
    ∀ l : List Nat,
    ((l.filter fun j => decide (i < j)).filter
        fun j => decide (matGet s.roadMatrix i j = 1)).map
      (fun j => ((s.cities.getD i default).name ++ "-" ++ (s.cities.getD j default).name,
        matGetQ s.budgetMatrix i j)) =
    ((l.map fun j => (i, j)).filter fun p =>
        decide (p.1 < p.2) && decide (matGet s.roadMatrix p.1 p.2 = 1)).map
      fun p => ((s.cities.getD p.1 default).name ++ "-" ++ (s.cities.getD p.2 default).name,
        matGetQ s.budgetMatrix p.1 p.2) := by
  intro l
  have h1 : (l.filter fun j => decide (i < j)).filter
        (fun j => decide (matGet s.roadMatrix i j = 1)) =
      l.filter fun j => decide (i < j) && decide (matGet s.roadMatrix i j = 1) := by
    rw [List.filter_filter]
    exact List.filter_congr fun a _ => Bool.and_comm _ _
  rw [h1, List.filter_map, List.map_map]
  rfl

/-- C8: for every reachable state, the snapshot road table emitted by the
writer is exactly the §4.3 spec-side table: the pairs `(i, j)` with `i < j`
and `A[i][j] = 1` in row-major order, numbered sequentially from 1, each
rendered as `"<name at i>-<name at j>"` with the stored budget `B[i][j]`. -/
theorem claim_C8 (ops : List Op) : roadTable (run ops) = roadTableSpec (run ops) := by
  have hs := Inv_run ops
  unfold roadTable roadTableSpec roadRowsCode roadPairsSpec
  congr 1
  rw [List.filter_flatMap, List.map_flatMap, hs.roadSq.1]
  apply flatMap_congr_mem
  intro i hi
  have hi' : i < (run ops).cities.length := List.mem_range.mp hi
  have hrow : ((run ops).roadMatrix.getD i []).length = (run ops).cities.length :=
    hs.roadSq.2 _ (getD_mem _ i [] (by rw [hs.roadSq.1]; exact hi'))
  rw [hrow]
  exact road_rows_inner (run ops) i (List.range (run ops).cities.length)

end RwandaInfra
